import Mathlib

set_option maxRecDepth 100000

/-!
Verification of the ledger/query core of the Telegram expense-tracking bot
(`src/bot.py`).  The Python source is shallowly embedded below: the SQLite
table becomes a list of `Entry` records, the `datetime` values stored as
ISO-8601 text become `DateTime` records compared componentwise (lexicographic
comparison of canonical ISO-8601 strings, as performed by SQLite's `>=`,
`BETWEEN` and `=` on the `date` column, coincides with this componentwise
order because `datetime.isoformat()` output is fixed-width zero-padded and
only appends a fractional part `.ffffff` when `microsecond ≠ 0`), and the
handler coroutines become pure functions from a store and the current
instant to a new store and the reply text.
-/

/-- Naive local timestamp, mirroring Python `datetime.datetime`
(year, month, day, hour, minute, second, microsecond). -/
structure DateTime where
  year : Nat
  month : Nat
  day : Nat
  hour : Nat
  minute : Nat
  second : Nat
  microsecond : Nat
deriving DecidableEq, Repr

/-- Chronological comparison of two timestamps: lexicographic on the seven
components.  This is the order SQLite's string `>=` / `BETWEEN` computes on
the canonical `datetime.isoformat()` text stored in the `date` column. -/
def dtLe (a b : DateTime) : Bool :=
  if a.year ≠ b.year then decide (a.year < b.year)
  else if a.month ≠ b.month then decide (a.month < b.month)
  else if a.day ≠ b.day then decide (a.day < b.day)
  else if a.hour ≠ b.hour then decide (a.hour < b.hour)
  else if a.minute ≠ b.minute then decide (a.minute < b.minute)
  else if a.second ≠ b.second then decide (a.second < b.second)
  else decide (a.microsecond ≤ b.microsecond)

/-- One row of the `expenses` table (`src/bot.py` lines 22-31):
`id INTEGER PRIMARY KEY AUTOINCREMENT, user_id INTEGER, amount REAL NOT NULL,
category TEXT, type TEXT NOT NULL, date TEXT NOT NULL`.  `user_id` is
nullable, hence `Option Int`; `REAL` amounts are modelled as rationals. -/
structure Entry where
  id : Nat
  user_id : Option Int
  amount : Rat
  category : String
  entry_type : String
  date : DateTime
deriving DecidableEq, Repr

/-- The database: the rows plus the next `AUTOINCREMENT` id (SQLite assigns
ids 1, 2, 3, … in insertion order). -/
structure Store where
  entries : List Entry
  next_id : Nat
deriving DecidableEq, Repr

/-- The freshly created table. -/
def emptyStore : Store := ⟨[], 1⟩

/-- Python `str.split()` with no argument: split on runs of whitespace,
dropping empty pieces.  Worker over the character list. -/
def splitWSAux : List Char → List Char → List (List Char)
  | [], acc => [acc.reverse]
  | c :: cs, acc =>
      if c.isWhitespace then acc.reverse :: splitWSAux cs []
      else splitWSAux cs (c :: acc)

/-- Python `text.split()`.  (`text.strip()` before `split()` in the source
is a no-op for the resulting token list, so it is not modelled separately.) -/
def pySplit (text : String) : List String :=
  ((splitWSAux text.data []).map (fun l => String.mk l)).filter (fun t => t != "")

/-- Python `" ".join(parts)`. -/
def joinSp : List String → String
  | [] => ""
  | [x] => x
  | x :: xs => x ++ " " ++ joinSp xs

/-- Decimal value of a digit string. -/
def natOfDigits (l : List Char) : Nat :=
  l.foldl (fun n c => n * 10 + (c.toNat - 48)) 0

/-- Apply an optional exponent suffix (after the `e`/`E`): optional sign,
then at least one digit and nothing else. -/
def applyExp (m : Rat) (s : List Char) : Option Rat :=
  let p : Bool × List Char :=
    match s with
    | '+' :: r => (false, r)
    | '-' :: r => (true, r)
    | _ => (false, s)
  let ds := p.2.takeWhile Char.isDigit
  if ds.isEmpty then none
  else if !(p.2.dropWhile Char.isDigit).isEmpty then none
  else some (if p.1 then m / (10 : Rat) ^ natOfDigits ds else m * (10 : Rat) ^ natOfDigits ds)

/-- Optional exponent part: empty, or `e`/`E` followed by an exponent. -/
def expPart (m : Rat) (s : List Char) : Option Rat :=
  match s with
  | [] => some m
  | 'e' :: r => applyExp m r
  | 'E' :: r => applyExp m r
  | _ => none

/-- Unsigned part of a Python `float()` literal: digits with an optional
decimal point (at least one digit overall) and an optional exponent. -/
def pyFloatCore (s : List Char) : Option Rat :=
  let ip := s.takeWhile Char.isDigit
  let r1 := s.dropWhile Char.isDigit
  match r1 with
  | '.' :: r2 =>
      let fp := r2.takeWhile Char.isDigit
      let r3 := r2.dropWhile Char.isDigit
      if ip.isEmpty && fp.isEmpty then none
      else expPart ((natOfDigits ip : Rat) + (natOfDigits fp : Rat) / (10 : Rat) ^ fp.length) r3
  | _ =>
      if ip.isEmpty then none
      else expPart (natOfDigits ip : Rat) r1

/-- Model of Python `float(token)` on finite decimal literals: optional
sign, then digits with optional decimal point and optional exponent.
(The special spellings `inf`/`infinity`/`nan` and digit-group underscores,
which rationals cannot or need not represent, are outside the model.)
Returns `none` exactly when `float()` raises `ValueError` on such input. -/
def pyFloat (s : String) : Option Rat :=
  match s.data with
  | '+' :: r => pyFloatCore r
  | '-' :: r => (pyFloatCore r).map (fun q => -q)
  | l => pyFloatCore l

/-- Outcome of the free-text entry parser (`handle_message`, lines 121-149):
either of the two rejection replies, or a validated
(amount, category, type) triple. -/
inductive ParseResult where
  | formatError
  | notANumberError
  | ok (amount : Rat) (category : String) (entry_type : String)
deriving DecidableEq, Repr

/-- The designated amount token of a token list: the second-to-last token
when the last token is the literal `+`, else the last token. -/
def amountToken (parts : List String) : String :=
  if parts.getLastD "" = "+" then parts.dropLast.getLastD "" else parts.getLastD ""

/-- The parsing step of `handle_message` (`src/bot.py` lines 121-147):
split into tokens; fewer than 2 tokens is a format error; a trailing `+`
marks income with the amount in the second-to-last token and the category
in the tokens before it; otherwise an expense with the amount in the last
token and the category in the tokens before it. -/
def parseEntry (text : String) : ParseResult :=
  let parts := pySplit text
  if parts.length < 2 then ParseResult.formatError
  else if parts.getLastD "" = "+" then
    match pyFloat (parts.dropLast.getLastD "") with
    | none => ParseResult.notANumberError
    | some amount => ParseResult.ok amount (joinSp parts.dropLast.dropLast) "income"
  else
    match pyFloat (parts.getLastD "") with
    | none => ParseResult.notANumberError
    | some amount => ParseResult.ok amount (joinSp parts.dropLast) "expense"

example : parseEntry "אוכל 50" = ParseResult.ok 50 "אוכל" "expense" := by decide
example : parseEntry "משכורת 1500 +" = ParseResult.ok 1500 "משכורת" "income" := by decide
example : parseEntry "50" = ParseResult.formatError := by decide
example : parseEntry "אוכל abc" = ParseResult.notANumberError := by decide
example : pyFloat "12.5" = some (25 / 2) := by with_unfolding_all decide
example : pyFloat "+" = none := by decide
example : pyFloat "1e3" = some 1000 := by with_unfolding_all decide

/-- Day index of a civil date (days since 0000-03-01), the standard
era-based Gregorian conversion; used to subtract seven days the way
`timedelta(days=7)` does. -/
def toDayNumber (y m d : Nat) : Nat :=
  let y2 := if m ≤ 2 then y - 1 else y
  let era := y2 / 400
  let yoe := y2 % 400
  let mp := if 2 < m then m - 3 else m + 9
  let doy := (153 * mp + 2) / 5 + d - 1
  let doe := yoe * 365 + yoe / 4 - yoe / 100 + doy
  era * 146097 + doe

/-- Inverse of `toDayNumber`: the civil date of a day index. -/
def fromDayNumber (n : Nat) : Nat × Nat × Nat :=
  let era := n / 146097
  let doe := n % 146097
  let yoe := (doe - doe / 1460 + doe / 36524 - doe / 146096) / 365
  let y := yoe + era * 400
  let doy := doe - (365 * yoe + yoe / 4 - yoe / 100)
  let mp := (5 * doy + 2) / 153
  let d := doy - (153 * mp + 2) / 5 + 1
  let m := if mp < 10 then mp + 3 else mp - 9
  (if m ≤ 2 then y + 1 else y, m, d)

/-- Python `now - timedelta(days=7)` on a naive datetime: the calendar date
seven days earlier, time of day unchanged. -/
def weekAgo (now : DateTime) : DateTime :=
  let c := fromDayNumber (toDayNumber now.year now.month now.day - 7)
  ⟨c.1, c.2.1, c.2.2, now.hour, now.minute, now.second, now.microsecond⟩

/-- Python `datetime.now().replace(day=1, hour=0, minute=0, second=0)`
(`src/bot.py` lines 57 and 82).  Note that `microsecond` is NOT replaced,
so the instant keeps the current microsecond-of-second. -/
def startOfMonth (now : DateTime) : DateTime :=
  { now with day := 1, hour := 0, minute := 0, second := 0 }

example : weekAgo ⟨2026, 2, 15, 12, 0, 0, 500000⟩ = ⟨2026, 2, 8, 12, 0, 0, 500000⟩ := by decide
example : weekAgo ⟨2026, 3, 4, 1, 2, 3, 4⟩ = ⟨2026, 2, 25, 1, 2, 3, 4⟩ := by decide
example : weekAgo ⟨2024, 3, 4, 1, 2, 3, 4⟩ = ⟨2024, 2, 26, 1, 2, 3, 4⟩ := by decide
example : weekAgo ⟨2026, 1, 3, 0, 0, 0, 0⟩ = ⟨2025, 12, 27, 0, 0, 0, 0⟩ := by decide

/-- `add_entry` (`src/bot.py` lines 36-41): `INSERT INTO expenses
(amount, category, type, date) VALUES (?, ?, ?, ?)` with
`datetime.now().isoformat()` as the date.  Only those four columns are
supplied, so `user_id` is NULL; SQLite assigns the next id. -/
def add_entry (s : Store) (amount : Rat) (category : String) (entry_type : String)
    (now : DateTime) : Store :=
  ⟨s.entries ++ [⟨s.next_id, none, amount, category, entry_type, now⟩], s.next_id + 1⟩

/-- `SELECT type, SUM(amount) FROM … GROUP BY type`: one row per distinct
`type` value among `rows`, carrying the sum of the amounts of that type. -/
def sqlSumByType (rows : List Entry) : List (String × Rat) :=
  ((rows.map (fun e => e.entry_type)).dedup).map
    (fun ty => (ty, ((rows.filter (fun e => e.entry_type == ty)).map (fun e => e.amount)).sum))

/-- Python `sum(total for t, total in results if t == ty)`. -/
def sumIfType (results : List (String × Rat)) (ty : String) : Rat :=
  ((results.filter (fun p => p.1 == ty)).map (fun p => p.2)).sum

/-- Shared body of `get_week_total` and `get_month_total` (`src/bot.py`
lines 44-65): `SELECT type, SUM(amount) FROM expenses WHERE date >= ?
GROUP BY type`, then the income and expense group sums. -/
def sumByTypeSince (s : Store) (t : DateTime) : Rat × Rat :=
  let results := sqlSumByType (s.entries.filter (fun e => dtLe t e.date))
  (sumIfType results "income", sumIfType results "expense")

/-- `get_week_total` (`src/bot.py` lines 44-53): window start is
`datetime.now() - timedelta(days=7)`. -/
def get_week_total (s : Store) (now : DateTime) : Rat × Rat :=
  sumByTypeSince s (weekAgo now)

/-- `get_month_total` (`src/bot.py` lines 56-65): window start is
`datetime.now().replace(day=1, hour=0, minute=0, second=0)`. -/
def get_month_total (s : Store) (now : DateTime) : Rat × Rat :=
  sumByTypeSince s (startOfMonth now)

/-- `SELECT category, type, SUM(amount) FROM … GROUP BY category, type`:
one row per distinct (category, type) pair with the summed amount. -/
def sqlSumByCatType (rows : List Entry) : List (String × String × Rat) :=
  ((rows.map (fun e => (e.category, e.entry_type))).dedup).map
    (fun k => (k.1, k.2,
      ((rows.filter (fun e => e.category == k.1 && e.entry_type == k.2)).map
        (fun e => e.amount)).sum))

/-- The Python loop `data = {"income": {}, "expense": {}}; for cat, t, total
in results: data[t][cat] = total`, returned as two association lists.  The
GROUP BY guarantees the (category, type) keys are distinct, so each dict key
is assigned exactly once and the dicts are exactly the rows of each type.
(A row whose type were neither string would raise `KeyError` in Python;
entries only ever carry those two types.) -/
def splitByType (results : List (String × String × Rat)) :
    List (String × Rat) × List (String × Rat) :=
  (results.filterMap (fun r => if r.2.1 == "income" then some (r.1, r.2.2) else none),
   results.filterMap (fun r => if r.2.1 == "expense" then some (r.1, r.2.2) else none))

/-- Shared body of `get_week_totals_by_category` and
`get_month_totals_by_category` (`src/bot.py` lines 68-91). -/
def sumByCategorySince (s : Store) (t : DateTime) :
    List (String × Rat) × List (String × Rat) :=
  splitByType (sqlSumByCatType (s.entries.filter (fun e => dtLe t e.date)))

/-- `get_week_totals_by_category` (`src/bot.py` lines 68-78). -/
def get_week_totals_by_category (s : Store) (now : DateTime) :
    List (String × Rat) × List (String × Rat) :=
  sumByCategorySince s (weekAgo now)

/-- `get_month_totals_by_category` (`src/bot.py` lines 81-91). -/
def get_month_totals_by_category (s : Store) (now : DateTime) :
    List (String × Rat) × List (String × Rat) :=
  sumByCategorySince s (startOfMonth now)

/-- Decimal digits of a positive number, most significant first; `fuel`
bounds the recursion (10 digits suffice for every value in the program). -/
def natDigitsAux : Nat → Nat → List Char → List Char
  | 0, _, acc => acc
  | fuel + 1, n, acc =>
      if n = 0 then acc
      else natDigitsAux fuel (n / 10) (Char.ofNat (48 + n % 10) :: acc)

/-- Decimal rendering of a natural number. -/
def natToStr (n : Nat) : String :=
  if n = 0 then "0" else String.mk (natDigitsAux 10 n [])

/-- Decimal rendering of an integer (minus sign from the number itself). -/
def intToStr (i : Int) : String :=
  if i < 0 then "-" ++ natToStr i.natAbs else natToStr i.natAbs

/-- Round half to even, the rounding used by Python `format(x, ".0f")`. -/
def rne (q : Rat) : Int :=
  let f := q.floor
  if q - f < 1 / 2 then f
  else if (1 : Rat) / 2 < q - f then f + 1
  else if f % 2 = 0 then f else f + 1

/-- Python `f"{q:.0f}"`: the value rounded to zero decimal places (half to
even); a negative value rounding to zero prints as `-0`. -/
def fmt0 (q : Rat) : String :=
  let r := rne q
  if r = 0 ∧ q < 0 then "-0" else intToStr r

/-- The net line value: `sign = "+" if net > 0 else ""` followed by
`f"{net:.0f}"` (`src/bot.py` lines 108, 114, 159-160, 167, 171). -/
def netStr (net : Rat) : String :=
  (if 0 < net then "+" else "") ++ fmt0 net

/-- Python `"\n".join(lines)`. -/
def joinNl : List String → String
  | [] => ""
  | [x] => x
  | x :: xs => x ++ "\n" ++ joinNl xs

/-- One iteration of the `format_summary` loop (`src/bot.py` lines
99-105): an income row adds to the income total, any other row adds to the
expense total, and each row appends its rendered line. -/
def summaryStep (acc : Rat × Rat × List String) (r : String × String × Rat) :
    Rat × Rat × List String :=
  if r.2.1 == "income" then
    (acc.1 + r.2.2, acc.2.1, acc.2.2 ++ ["🟢 " ++ r.1 ++ ": +" ++ fmt0 r.2.2 ++ " ₪"])
  else
    (acc.1, acc.2.1 + r.2.2, acc.2.2 ++ ["🔴 " ++ r.1 ++ ": -" ++ fmt0 r.2.2 ++ " ₪"])

/-- The loop of `format_summary` (`src/bot.py` lines 95-105): accumulate
the income total, the expense total and the per-row lines. -/
def summaryLoop (rows : List (String × String × Rat)) : Rat × Rat × List String :=
  rows.foldl summaryStep (0, 0, [])

/-- `format_summary` (`src/bot.py` lines 94-117). -/
def format_summary (rows : List (String × String × Rat)) : String :=
  let acc := summaryLoop rows
  joinNl acc.2.2 ++
    "\n\n💰 הכנסות: " ++ fmt0 acc.1 ++ " ₪" ++
    "\n💸 הוצאות: " ++ fmt0 acc.2.1 ++ " ₪" ++
    "\n📊 נטו: " ++ netStr (acc.1 - acc.2.1) ++ " ₪"

/-- Reply for fewer than two tokens (`src/bot.py` lines 126-128). -/
def fmtErrReply : String :=
  "❌ פורמט שגוי\nשלח: קטגוריה סכום (עם + בסוף אם זו הכנסה)\nלדוגמה: אוכל 50\nמשכורת 1500 +"

/-- Reply for an unparseable amount (`src/bot.py` lines 137, 145). -/
def nanReply : String := "❌ הסכום חייב להיות מספר"

/-- Success reply of `handle_message` (`src/bot.py` lines 162-172). -/
def successReply (wi we mi me : Rat) : String :=
  "✅ נרשם בהצלחה\n\n" ++
    "📆 סה״כ השבוע:\n" ++
    "הכנסות: " ++ fmt0 wi ++ " ₪\n" ++
    "הוצאות: " ++ fmt0 we ++ " ₪\n" ++
    "נטו: " ++ netStr (wi - we) ++ " ₪\n\n" ++
    "🗓️ סה״כ החודש:\n" ++
    "הכנסות: " ++ fmt0 mi ++ " ₪\n" ++
    "הוצאות: " ++ fmt0 me ++ " ₪\n" ++
    "נטו: " ++ netStr (mi - me) ++ " ₪"

/-- `handle_message` (`src/bot.py` lines 121-173): parse the text; on
failure reply with the fixed error text and leave the store alone; on
success insert the entry, recompute the week and month totals and reply
with the confirmation block. -/
def handle_message (s : Store) (now : DateTime) (text : String) : Store × String :=
  match parseEntry text with
  | ParseResult.formatError => (s, fmtErrReply)
  | ParseResult.notANumberError => (s, nanReply)
  | ParseResult.ok amount category entry_type =>
      let s2 := add_entry s amount category entry_type now
      let wt := get_week_total s2 now
      let mt := get_month_total s2 now
      (s2, successReply wt.1 wt.2 mt.1 mt.2)

/-- `SELECT … FROM expenses ORDER BY id DESC LIMIT 1`: the row with the
largest id, if any (ids are unique, being the primary key). -/
def maxIdEntry : List Entry → Option Entry
  | [] => none
  | e :: es =>
      match maxIdEntry es with
      | none => some e
      | some m => if m.id > e.id then some m else some e

/-- Reply of a successful `/undo` (`src/bot.py` line 250). -/
def undoReply (e : Entry) : String :=
  "✅ נמחקה הרשומה האחרונה: " ++ e.category ++ " " ++ fmt0 e.amount ++ " ₪ (" ++
    e.entry_type ++ ")"

/-- Reply of `/undo` on an empty table (`src/bot.py` line 245). -/
def emptyUndoReply : String := "❌ אין רשומות למחוק"

/-- `undo_last` (`src/bot.py` lines 241-250): select the row with the
highest id; if none, reply that there is nothing to delete; otherwise
`DELETE FROM expenses WHERE id = ?` and echo the removed row's fields. -/
def undo_last (s : Store) : Store × String :=
  match maxIdEntry s.entries with
  | none => (s, emptyUndoReply)
  | some last =>
      (⟨s.entries.filter (fun e => e.id != last.id), s.next_id⟩, undoReply last)

/-- Zero-padded decimal rendering of width `w` (Python `%02d` / `%04d` /
the six fractional digits of `isoformat`). -/
def padZ (w n : Nat) : String :=
  let s := natToStr n
  String.mk (List.replicate (w - s.length) '0') ++ s

/-- `datetime.isoformat()`: `YYYY-MM-DDTHH:MM:SS`, with `.ffffff` appended
only when the microsecond is nonzero. -/
def isoDateTime (t : DateTime) : String :=
  padZ 4 t.year ++ "-" ++ padZ 2 t.month ++ "-" ++ padZ 2 t.day ++ "T" ++
    padZ 2 t.hour ++ ":" ++ padZ 2 t.minute ++ ":" ++ padZ 2 t.second ++
    (if t.microsecond = 0 then "" else "." ++ padZ 6 t.microsecond)

/-- `date.isoformat()`: `YYYY-MM-DD`. -/
def isoDate (target : Nat × Nat × Nat) : String :=
  padZ 4 target.1 ++ "-" ++ padZ 2 target.2.1 ++ "-" ++ padZ 2 target.2.2

/-- `date.strftime("%d/%m/%Y")` / the echoed `/delete` argument. -/
def dmyStr (target : Nat × Nat × Nat) : String :=
  padZ 2 target.2.2 ++ "/" ++ padZ 2 target.2.1 ++ "/" ++ padZ 4 target.1

/-- Success reply of `/delete` (`src/bot.py` line 273), echoing the date. -/
def deleteReply (target : Nat × Nat × Nat) : String :=
  "✅ נמחקו כל ההכנסות וההוצאות מתאריך " ++ dmyStr target

/-- `delete_by_date` (`src/bot.py` lines 253-273) applied to an
already-parsed `dd/mm/yyyy` date `(y, m, d)`: `DELETE FROM expenses WHERE
date BETWEEN ? AND ?` with bounds `dt.replace(hour=0, minute=0, second=0)`
and `dt.replace(hour=23, minute=59, second=59)` (`strptime` leaves
`microsecond = 0`).  The reply is the same success text whether or not any
row matched. -/
def delete_by_date (s : Store) (target : Nat × Nat × Nat) : Store × String :=
  let lo : DateTime := ⟨target.1, target.2.1, target.2.2, 0, 0, 0, 0⟩
  let hi : DateTime := ⟨target.1, target.2.1, target.2.2, 23, 59, 59, 0⟩
  (⟨s.entries.filter (fun e => !(dtLe lo e.date && dtLe e.date hi)), s.next_id⟩,
   deleteReply target)

/-- Reply of `/search` when the query returns no rows (`src/bot.py`
line 296). -/
def noDataReply : String := "אין נתונים לתאריך הזה"

/-- `search_date` (`src/bot.py` lines 276-302) applied to the caller's
user id and the already-parsed target date: `SELECT category, type,
SUM(amount) FROM expenses WHERE user_id = ? AND date = ? GROUP BY category,
type`, binding `target.isoformat()` — a date-only string — against the
`date` column, which holds full `datetime.isoformat()` text.  (SQL
`user_id = ?` is false on NULL, hence the `Option.some` comparison.) -/
def search_date (s : Store) (user_id : Int) (target : Nat × Nat × Nat) :
    List (String × String × Rat) × String :=
  let rows := sqlSumByCatType (s.entries.filter
    (fun e => e.user_id == some user_id && isoDateTime e.date == isoDate target))
  if rows = [] then ([], noDataReply)
  else (rows, "📅 סיכום ל־" ++ dmyStr target ++ ":\n\n" ++ format_summary rows)

/-- C1: for every raw trimmed text with at least two whitespace-separated
tokens, the parser classifies a trailing literal `+` as income with the
amount parsed from the second-to-last token and the category the earlier
tokens joined by single spaces (possibly empty), and anything else as an
expense with the amount parsed from the last token and the category the
earlier tokens; in particular "אוכל 50" parses to expense 50 in category
"אוכל" and "משכורת 1500 +" to income 1500 in category "משכורת". -/
theorem c1_entry_parser_classification :
    (∀ text : String, 2 ≤ (pySplit text).length →
      (((pySplit text).getLastD "" = "+" →
        ∀ a : Rat, pyFloat ((pySplit text).dropLast.getLastD "") = some a →
          parseEntry text
            = ParseResult.ok a (joinSp (pySplit text).dropLast.dropLast) "income")
      ∧ ((pySplit text).getLastD "" ≠ "+" →
        ∀ a : Rat, pyFloat ((pySplit text).getLastD "") = some a →
          parseEntry text
            = ParseResult.ok a (joinSp (pySplit text).dropLast) "expense")))
    ∧ parseEntry "אוכל 50" = ParseResult.ok 50 "אוכל" "expense"
    ∧ parseEntry "משכורת 1500 +" = ParseResult.ok 1500 "משכורת" "income" := by
  refine ⟨fun text hlen => ⟨fun hplus a ha => ?_, fun hne a ha => ?_⟩, by decide, by decide⟩
  · simp only [parseEntry]
    rw [if_neg (by omega), if_pos hplus, ha]
  · simp only [parseEntry]
    rw [if_neg (by omega), if_neg hne, ha]

/-- Witness for C1 at a concrete input. -/
theorem c1_entry_parser_classification_witness :
    parseEntry "קפה 7" = ParseResult.ok 7 "קפה" "expense" :=
  (c1_entry_parser_classification.1 "קפה 7" (by decide)).2 (by decide) 7 (by decide)

/-- C2: the parser fails with the format error exactly when the input has
fewer than two tokens, fails with the not-a-number error exactly when the
designated amount token (second-to-last for income, last for expense) does
not parse as a real number, and on either failure the store is unchanged
and only the corresponding fixed error reply is produced. -/
theorem c2_parser_failure_modes :
    ∀ (text : String) (s : Store) (now : DateTime),
      (parseEntry text = ParseResult.formatError ↔ (pySplit text).length < 2)
      ∧ (parseEntry text = ParseResult.notANumberError ↔
          (2 ≤ (pySplit text).length ∧ pyFloat (amountToken (pySplit text)) = none))
      ∧ (parseEntry text = ParseResult.formatError →
          handle_message s now text = (s, fmtErrReply))
      ∧ (parseEntry text = ParseResult.notANumberError →
          handle_message s now text = (s, nanReply)) := by
  intro text s now
  by_cases hl : (pySplit text).length < 2
  · have hpe : parseEntry text = ParseResult.formatError := by
      simp only [parseEntry]
      rw [if_pos hl]
    refine ⟨⟨fun _ => hl, fun _ => hpe⟩, ⟨fun h => ?_, fun h => ?_⟩, fun _ => ?_, fun h => ?_⟩
    · rw [hpe] at h
      exact absurd h (by simp)
    · exact absurd h.1 (by omega)
    · simp [handle_message, hpe]
    · rw [hpe] at h
      exact absurd h (by simp)
  · by_cases hp : (pySplit text).getLastD "" = "+"
    · have hat : amountToken (pySplit text) = (pySplit text).dropLast.getLastD "" := by
        unfold amountToken
        rw [if_pos hp]
      rcases hf : pyFloat ((pySplit text).dropLast.getLastD "") with _ | a
      · have hpe : parseEntry text = ParseResult.notANumberError := by
          simp only [parseEntry]
          rw [if_neg hl, if_pos hp, hf]
        refine ⟨⟨fun h => ?_, fun h => absurd h hl⟩,
          ⟨fun _ => ⟨by omega, by rw [hat] ; exact hf⟩, fun _ => hpe⟩,
          fun h => ?_, fun _ => by simp [handle_message, hpe]⟩
        · rw [hpe] at h
          exact absurd h (by simp)
        · rw [hpe] at h
          exact absurd h (by simp)
      · have hpe : parseEntry text
            = ParseResult.ok a (joinSp (pySplit text).dropLast.dropLast) "income" := by
          simp only [parseEntry]
          rw [if_neg hl, if_pos hp, hf]
        refine ⟨⟨fun h => ?_, fun h => absurd h hl⟩, ⟨fun h => ?_, fun h => ?_⟩,
          fun h => ?_, fun h => ?_⟩
        · rw [hpe] at h
          exact absurd h (by simp)
        · rw [hpe] at h
          exact absurd h (by simp)
        · exfalso
          rw [hat, hf] at h
          exact absurd h.2 (by simp)
        · rw [hpe] at h
          exact absurd h (by simp)
        · rw [hpe] at h
          exact absurd h (by simp)
    · have hat : amountToken (pySplit text) = (pySplit text).getLastD "" := by
        unfold amountToken
        rw [if_neg hp]
      rcases hf : pyFloat ((pySplit text).getLastD "") with _ | a
      · have hpe : parseEntry text = ParseResult.notANumberError := by
          simp only [parseEntry]
          rw [if_neg hl, if_neg hp, hf]
        refine ⟨⟨fun h => ?_, fun h => absurd h hl⟩,
          ⟨fun _ => ⟨by omega, by rw [hat] ; exact hf⟩, fun _ => hpe⟩,
          fun h => ?_, fun _ => by simp [handle_message, hpe]⟩
        · rw [hpe] at h
          exact absurd h (by simp)
        · rw [hpe] at h
          exact absurd h (by simp)
      · have hpe : parseEntry text
            = ParseResult.ok a (joinSp (pySplit text).dropLast) "expense" := by
          simp only [parseEntry]
          rw [if_neg hl, if_neg hp, hf]
        refine ⟨⟨fun h => ?_, fun h => absurd h hl⟩, ⟨fun h => ?_, fun h => ?_⟩,
          fun h => ?_, fun h => ?_⟩
        · rw [hpe] at h
          exact absurd h (by simp)
        · rw [hpe] at h
          exact absurd h (by simp)
        · exfalso
          rw [hat, hf] at h
          exact absurd h.2 (by simp)
        · rw [hpe] at h
          exact absurd h (by simp)
        · rw [hpe] at h
          exact absurd h (by simp)

/-- Witness for C2 at concrete inputs: a non-numeric amount leaves the
store unchanged with the fixed reply, and a single token is exactly a
format error. -/
theorem c2_parser_failure_modes_witness :
    handle_message emptyStore ⟨2026, 1, 1, 0, 0, 0, 0⟩ "אוכל abc"
      = (emptyStore, nanReply)
    ∧ parseEntry "50" = ParseResult.formatError :=
  ⟨(c2_parser_failure_modes "אוכל abc" emptyStore ⟨2026, 1, 1, 0, 0, 0, 0⟩).2.2.2 (by decide),
   (c2_parser_failure_modes "50" emptyStore ⟨2026, 1, 1, 0, 0, 0, 0⟩).1.mpr (by decide)⟩

/-- Keys absent from a keyed list contribute no group row. -/
theorem filter_keyed_not_mem (keys : List String) (f : String → Rat) (ty : String)
    (h : ty ∉ keys) :
    (keys.map (fun k => (k, f k))).filter (fun p => p.1 == ty) = [] := by
  induction keys with
  | nil => rfl
  | cons k ks ih =>
      have hk : ¬(k == ty) = true := by
        simp only [beq_iff_eq]
        intro hkk
        exact h (hkk ▸ List.mem_cons_self k ks)
      simp only [List.map_cons, List.filter_cons]
      rw [if_neg (by simpa using hk)]
      exact ih (fun hm => h (List.mem_cons_of_mem _ hm))

/-- Summing the group rows whose key is `ty` over a keyed list with
distinct keys gives the keyed value when the key occurs, else zero. -/
theorem sumIfType_keyed (keys : List String) (f : String → Rat) (ty : String)
    (h : keys.Nodup) :
    sumIfType (keys.map (fun k => (k, f k))) ty = if ty ∈ keys then f ty else 0 := by
  induction keys with
  | nil => simp [sumIfType]
  | cons k ks ih =>
      rcases List.nodup_cons.mp h with ⟨hk, hks⟩
      by_cases hkt : k = ty
      · subst hkt
        unfold sumIfType
        simp only [List.map_cons, List.filter_cons]
        rw [if_pos (by simp)]
        rw [filter_keyed_not_mem ks f k hk]
        simp
      · unfold sumIfType
        simp only [List.map_cons, List.filter_cons]
        rw [if_neg (by simpa using hkt)]
        have := ih hks
        unfold sumIfType at this
        rw [this]
        by_cases hmem : ty ∈ ks
        · rw [if_pos hmem, if_pos (List.mem_cons_of_mem _ hmem)]
        · have hnc : ty ∉ k :: ks := by
            intro hc
            rcases List.mem_cons.mp hc with h1 | h2
            · exact hkt h1.symm
            · exact hmem h2
          rw [if_neg hmem, if_neg hnc]

/-- The by-type group sums of `SELECT type, SUM(amount) … GROUP BY type`
equal the direct sums over the rows of each type. -/
theorem sumIfType_sqlSumByType (rows : List Entry) (ty : String) :
    sumIfType (sqlSumByType rows) ty
      = ((rows.filter (fun e => e.entry_type == ty)).map (fun e => e.amount)).sum := by
  unfold sqlSumByType
  rw [sumIfType_keyed _ _ _ (List.nodup_dedup _)]
  by_cases hmem : ty ∈ (rows.map (fun e => e.entry_type)).dedup
  · rw [if_pos hmem]
  · rw [if_neg hmem]
    have hnone : rows.filter (fun e => e.entry_type == ty) = [] := by
      rw [List.filter_eq_nil_iff]
      intro e he hbe
      exact hmem (List.mem_dedup.mpr (List.mem_map.mpr ⟨e, he, by simpa using hbe⟩))
    rw [hnone]
    simp

/-- C3: for every store and instant `t`, the by-type aggregate returns an
income total and an expense total each equal to the sum of the amounts of
the stored entries of that type with timestamp ≥ t; entries before `t`
contribute nothing (discarding them leaves both totals unchanged); the
week and month totals are this aggregate at their window starts. -/
theorem c3_sum_by_type_since :
    ∀ (s : Store) (t : DateTime),
      sumByTypeSince s t
        = (((s.entries.filter (fun e => dtLe t e.date && e.entry_type == "income")).map
              (fun e => e.amount)).sum,
           ((s.entries.filter (fun e => dtLe t e.date && e.entry_type == "expense")).map
              (fun e => e.amount)).sum)
      ∧ sumByTypeSince ⟨s.entries.filter (fun e => dtLe t e.date), s.next_id⟩ t
          = sumByTypeSince s t
      ∧ (∀ now : DateTime,
          get_week_total s now = sumByTypeSince s (weekAgo now)
          ∧ get_month_total s now = sumByTypeSince s (startOfMonth now)) := by
  intro s t
  refine ⟨?_, ?_, fun now => ⟨rfl, rfl⟩⟩
  · show (sumIfType (sqlSumByType (s.entries.filter (fun e => dtLe t e.date))) "income",
         sumIfType (sqlSumByType (s.entries.filter (fun e => dtLe t e.date))) "expense") = _
    rw [sumIfType_sqlSumByType, sumIfType_sqlSumByType]
    rw [List.filter_filter, List.filter_filter]
    have hcomm : ∀ (p q : Entry → Bool) (l : List Entry),
        l.filter (fun a => p a && q a) = l.filter (fun a => q a && p a) :=
      fun p q l => List.filter_congr (fun a _ => Bool.and_comm (p a) (q a))
    rw [hcomm (fun a => a.entry_type == "income") (fun a => dtLe t a.date) s.entries,
      hcomm (fun a => a.entry_type == "expense") (fun a => dtLe t a.date) s.entries]
  · show (sumIfType (sqlSumByType ((s.entries.filter (fun e => dtLe t e.date)).filter
            (fun e => dtLe t e.date))) "income",
         sumIfType (sqlSumByType ((s.entries.filter (fun e => dtLe t e.date)).filter
            (fun e => dtLe t e.date))) "expense")
      = (sumIfType (sqlSumByType (s.entries.filter (fun e => dtLe t e.date))) "income",
         sumIfType (sqlSumByType (s.entries.filter (fun e => dtLe t e.date))) "expense")
    simp only [List.filter_filter, Bool.and_self]

/-- Picking the rows of one type out of a keyed (category, type) list is
mapping over the keys of that type. -/
theorem filterMap_keyed (keys : List (String × String)) (f : String × String → Rat)
    (ty : String) :
    ((keys.map (fun k => (k.1, k.2, f k))).filterMap
        (fun r => if r.2.1 == ty then some (r.1, r.2.2) else none))
      = (keys.filter (fun k => k.2 == ty)).map (fun k => (k.1, f k)) := by
  induction keys with
  | nil => rfl
  | cons k ks ih =>
      by_cases hk : (k.2 == ty) = true
      · simp only [List.map_cons, List.filterMap_cons, List.filter_cons, hk, ite_true]
        rw [ih]
      · have hkf : (k.2 == ty) = false := by
          rwa [Bool.not_eq_true] at hk
        simp only [List.map_cons, List.filterMap_cons, List.filter_cons, hkf,
          Bool.false_eq_true, ite_false]
        rw [ih]

/-- Looking a category up in a keyed list all of whose keys have type `ty`
finds the keyed value exactly when `(cat, ty)` is a key. -/
theorem lookup_keyed (ks : List (String × String)) (f : String × String → Rat)
    (ty cat : String) (hty : ∀ k ∈ ks, k.2 = ty) :
    List.lookup cat (ks.map (fun k => (k.1, f k)))
      = if (cat, ty) ∈ ks then some (f (cat, ty)) else none := by
  induction ks with
  | nil => simp
  | cons k ks ih =>
      have hk2 : k.2 = ty := hty k (List.mem_cons_self k ks)
      by_cases hc : (cat == k.1) = true
      · have hkeq : k = (cat, ty) := by
          rcases k with ⟨k1, k2⟩
          simp only [beq_iff_eq] at hc
          simp_all
        simp only [List.map_cons, List.lookup_cons, hc]
        subst hkeq
        rw [if_pos (List.mem_cons_self _ _)]
      · have hcf : (cat == k.1) = false := by
          rwa [Bool.not_eq_true] at hc
        simp only [List.map_cons, List.lookup_cons, hcf]
        rw [ih (fun x hx => hty x (List.mem_cons_of_mem _ hx))]
        by_cases hm : (cat, ty) ∈ ks
        · rw [if_pos hm, if_pos (List.mem_cons_of_mem _ hm)]
        · have hnotc : (cat, ty) ∉ k :: ks := by
            intro hck
            rcases List.mem_cons.mp hck with h1 | h2
            · rw [beq_iff_eq] at hc
              exact hc (congrArg Prod.fst h1)
            · exact hm h2
          rw [if_neg hm, if_neg hnotc]

/-- The by-type dictionary of the category GROUP BY: looking up a category
in the type-`ty` map yields the sum over the matching rows, and nothing
when no row matches. -/
theorem lookup_catType (rows : List Entry) (ty cat : String) :
    List.lookup cat ((sqlSumByCatType rows).filterMap
        (fun r => if r.2.1 == ty then some (r.1, r.2.2) else none))
      = (if rows.filter (fun e => e.category == cat && e.entry_type == ty) = [] then none
         else some (((rows.filter (fun e => e.category == cat && e.entry_type == ty)).map
            (fun e => e.amount)).sum)) := by
  unfold sqlSumByCatType
  rw [filterMap_keyed]
  rw [lookup_keyed _ _ ty cat (fun k hk => by simpa using (List.mem_filter.mp hk).2)]
  by_cases hmem : (cat, ty) ∈
      ((rows.map (fun e => (e.category, e.entry_type))).dedup).filter (fun k => k.2 == ty)
  · rw [if_pos hmem]
    have hne : rows.filter (fun e => e.category == cat && e.entry_type == ty) ≠ [] := by
      have h1 := (List.mem_filter.mp hmem).1
      rcases List.mem_map.mp (List.mem_dedup.mp h1) with ⟨e, he, hk⟩
      intro hnil
      have hin : e ∈ rows.filter (fun e => e.category == cat && e.entry_type == ty) := by
        refine List.mem_filter.mpr ⟨he, ?_⟩
        have h2 : e.category = cat := congrArg Prod.fst hk
        have h3 : e.entry_type = ty := congrArg Prod.snd hk
        simp [h2, h3]
      rw [hnil] at hin
      exact absurd hin (List.not_mem_nil e)
    rw [if_neg hne]
  · rw [if_neg hmem]
    have hnil : rows.filter (fun e => e.category == cat && e.entry_type == ty) = [] := by
      rw [List.filter_eq_nil_iff]
      intro e he hb
      apply hmem
      have h2 : e.category = cat ∧ e.entry_type = ty := by simpa using hb
      refine List.mem_filter.mpr ⟨List.mem_dedup.mpr (List.mem_map.mpr ⟨e, he, ?_⟩), by simp⟩
      rw [h2.1, h2.2]
    rw [if_pos hnil]

/-- Each by-type dictionary of the category GROUP BY holds every category
at most once. -/
theorem nodup_catType (rows : List Entry) (ty : String) :
    (((sqlSumByCatType rows).filterMap
        (fun r => if r.2.1 == ty then some (r.1, r.2.2) else none)).map Prod.fst).Nodup := by
  unfold sqlSumByCatType
  rw [filterMap_keyed]
  rw [List.map_map]
  have hnd : (((rows.map (fun e => (e.category, e.entry_type))).dedup).filter
      (fun k => k.2 == ty)).Nodup := (List.nodup_dedup _).filter _
  refine List.Nodup.map_on ?_ hnd
  intro x hx y hy hxy
  have hx2 : x.2 = ty := by simpa using (List.mem_filter.mp hx).2
  have hy2 : y.2 = ty := by simpa using (List.mem_filter.mp hy).2
  have hx1 : x.1 = y.1 := hxy
  rcases x with ⟨x1, x2⟩
  rcases y with ⟨y1, y2⟩
  simp_all

/-- Commuting a Boolean conjunction under a filter. -/
theorem filter_rot (p q r : Entry → Bool) (l : List Entry) :
    l.filter (fun a => p a && q a && r a) = l.filter (fun a => r a && (p a && q a)) :=
  List.filter_congr (fun a _ => by
    cases p a <;> cases q a <;> cases r a <;> rfl)

/-- C9: for every store and window start, the category breakdown is two
independent mappings keyed by category — one for income, one for expense —
in which a category's entry is present with the sum of exactly its own
(category, type, window) rows and absent when no such row exists, each
mapping listing a category at most once; the week and month breakdowns are
this computation at their window starts. -/
theorem c9_category_breakdown :
    ∀ (s : Store) (t : DateTime) (cat : String),
      List.lookup cat (sumByCategorySince s t).1
        = (if s.entries.filter
              (fun e => dtLe t e.date && (e.category == cat && e.entry_type == "income")) = []
           then none
           else some (((s.entries.filter
              (fun e => dtLe t e.date && (e.category == cat && e.entry_type == "income"))).map
                (fun e => e.amount)).sum))
      ∧ List.lookup cat (sumByCategorySince s t).2
        = (if s.entries.filter
              (fun e => dtLe t e.date && (e.category == cat && e.entry_type == "expense")) = []
           then none
           else some (((s.entries.filter
              (fun e => dtLe t e.date && (e.category == cat && e.entry_type == "expense"))).map
                (fun e => e.amount)).sum))
      ∧ ((sumByCategorySince s t).1.map Prod.fst).Nodup
      ∧ ((sumByCategorySince s t).2.map Prod.fst).Nodup
      ∧ (∀ now : DateTime,
          get_week_totals_by_category s now = sumByCategorySince s (weekAgo now)
          ∧ get_month_totals_by_category s now = sumByCategorySince s (startOfMonth now)) := by
  intro s t cat
  have hrw1 : (sumByCategorySince s t).1
      = (sqlSumByCatType (s.entries.filter (fun e => dtLe t e.date))).filterMap
          (fun r => if r.2.1 == "income" then some (r.1, r.2.2) else none) := rfl
  have hrw2 : (sumByCategorySince s t).2
      = (sqlSumByCatType (s.entries.filter (fun e => dtLe t e.date))).filterMap
          (fun r => if r.2.1 == "expense" then some (r.1, r.2.2) else none) := rfl
  refine ⟨?_, ?_, ?_, ?_, fun now => ⟨rfl, rfl⟩⟩
  · rw [hrw1, lookup_catType, List.filter_filter,
      filter_rot (fun a => a.category == cat) (fun a => a.entry_type == "income")
        (fun a => dtLe t a.date) s.entries]
  · rw [hrw2, lookup_catType, List.filter_filter,
      filter_rot (fun a => a.category == cat) (fun a => a.entry_type == "expense")
        (fun a => dtLe t a.date) s.entries]
  · rw [hrw1]
    exact nodup_catType _ _
  · rw [hrw2]
    exact nodup_catType _ _

/-- The `format_summary` loop totals, with an arbitrary starting
accumulator: the first component accumulates the income rows, the second
the remaining rows. -/
theorem summaryLoop_go (rows : List (String × String × Rat)) :
    ∀ acc : Rat × Rat × List String,
      (rows.foldl summaryStep acc).1
          = acc.1 + ((rows.filter (fun r => r.2.1 == "income")).map (fun r => r.2.2)).sum
      ∧ (rows.foldl summaryStep acc).2.1
          = acc.2.1 + ((rows.filter (fun r => !(r.2.1 == "income"))).map (fun r => r.2.2)).sum := by
  induction rows with
  | nil =>
      intro acc
      simp
  | cons r rs ih =>
      intro acc
      by_cases hr : (r.2.1 == "income") = true
      · constructor
        · rw [List.foldl_cons]
          rw [show summaryStep acc r
              = (acc.1 + r.2.2, acc.2.1, acc.2.2 ++ ["🟢 " ++ r.1 ++ ": +" ++ fmt0 r.2.2 ++ " ₪"])
            by simp [summaryStep, hr]]
          rw [(ih _).1]
          rw [@List.filter_cons_of_pos _ (fun r => r.2.1 == "income") r rs hr,
            List.map_cons, List.sum_cons, add_assoc]
        · rw [List.foldl_cons]
          rw [show summaryStep acc r
              = (acc.1 + r.2.2, acc.2.1, acc.2.2 ++ ["🟢 " ++ r.1 ++ ": +" ++ fmt0 r.2.2 ++ " ₪"])
            by simp [summaryStep, hr]]
          rw [(ih _).2]
          rw [@List.filter_cons_of_neg _ (fun r => !(r.2.1 == "income")) r rs (by simp [hr])]
      · have hrf : (r.2.1 == "income") = false := by
          rwa [Bool.not_eq_true] at hr
        constructor
        · rw [List.foldl_cons]
          rw [show summaryStep acc r
              = (acc.1, acc.2.1 + r.2.2, acc.2.2 ++ ["🔴 " ++ r.1 ++ ": -" ++ fmt0 r.2.2 ++ " ₪"])
            by simp [summaryStep, hrf]]
          rw [(ih _).1]
          rw [@List.filter_cons_of_neg _ (fun r => r.2.1 == "income") r rs (by simp [hrf])]
        · rw [List.foldl_cons]
          rw [show summaryStep acc r
              = (acc.1, acc.2.1 + r.2.2, acc.2.2 ++ ["🔴 " ++ r.1 ++ ": -" ++ fmt0 r.2.2 ++ " ₪"])
            by simp [summaryStep, hrf]]
          rw [(ih _).2]
          rw [@List.filter_cons_of_pos _ (fun r => !(r.2.1 == "income")) r rs (by simp [hrf]),
            List.map_cons, List.sum_cons, add_assoc]

/-- C8: in every rendered summary the net is the income total minus the
expense total (the loop totals being exactly the sums of the income rows
and of the remaining rows), and the `+` prefix is applied exactly when the
net is strictly positive: net 0 renders "0", net 37 renders "+37", and net
−12 renders "-12" with only the number's own minus sign. -/
theorem c8_net_sign_rendering :
    ∀ (rows : List (String × String × Rat)) (n : Rat),
      (summaryLoop rows).1
          = ((rows.filter (fun r => r.2.1 == "income")).map (fun r => r.2.2)).sum
      ∧ (summaryLoop rows).2.1
          = ((rows.filter (fun r => !(r.2.1 == "income"))).map (fun r => r.2.2)).sum
      ∧ format_summary rows
          = joinNl (summaryLoop rows).2.2 ++
              "\n\n💰 הכנסות: " ++ fmt0 (summaryLoop rows).1 ++ " ₪" ++
              "\n💸 הוצאות: " ++ fmt0 (summaryLoop rows).2.1 ++ " ₪" ++
              "\n📊 נטו: " ++ netStr ((summaryLoop rows).1 - (summaryLoop rows).2.1) ++ " ₪"
      ∧ (0 < n → netStr n = "+" ++ fmt0 n)
      ∧ (¬ 0 < n → netStr n = fmt0 n)
      ∧ netStr 0 = "0" ∧ netStr 37 = "+37" ∧ netStr (-12) = "-12" := by
  intro rows n
  refine ⟨?_, ?_, rfl, fun h => ?_, fun h => ?_, ?_, ?_, ?_⟩
  · rw [show summaryLoop rows = rows.foldl summaryStep (0, 0, []) from rfl,
      (summaryLoop_go rows (0, 0, [])).1, zero_add]
  · rw [show summaryLoop rows = rows.foldl summaryStep (0, 0, []) from rfl,
      (summaryLoop_go rows (0, 0, [])).2, zero_add]
  · unfold netStr
    rw [if_pos h]
  · unfold netStr
    rw [if_neg h]
    rw [String.empty_append]
  · with_unfolding_all decide
  · with_unfolding_all decide
  · with_unfolding_all decide

/-- Witness for C8 at a concrete positive net. -/
theorem c8_net_sign_rendering_witness :
    (0 : Rat) < 5 ∧ netStr 5 = "+" ++ fmt0 5 :=
  ⟨by norm_num, (c8_net_sign_rendering [] 5).2.2.2.1 (by norm_num)⟩

/-- `ORDER BY id DESC LIMIT 1` returns no row only on an empty table. -/
theorem maxIdEntry_eq_none {l : List Entry} : maxIdEntry l = none ↔ l = [] := by
  cases l with
  | nil => simp [maxIdEntry]
  | cons e es =>
      constructor
      · intro h
        rcases hm : maxIdEntry es with _ | m
        · simp only [maxIdEntry, hm] at h
          exact absurd h (by simp)
        · simp only [maxIdEntry, hm] at h
          by_cases hgt : m.id > e.id
          · rw [if_pos hgt] at h
            exact absurd h (by simp)
          · rw [if_neg hgt] at h
            exact absurd h (by simp)
      · intro h
        exact absurd h (by simp)

/-- The row returned by `ORDER BY id DESC LIMIT 1` is a row of the table. -/
theorem maxIdEntry_mem {l : List Entry} {e : Entry} (h : maxIdEntry l = some e) :
    e ∈ l := by
  induction l with
  | nil => exact absurd h (by simp [maxIdEntry])
  | cons a as ih =>
      rcases hm : maxIdEntry as with _ | m
      · simp only [maxIdEntry, hm] at h
        exact (Option.some_inj.mp h) ▸ List.mem_cons_self a as
      · simp only [maxIdEntry, hm] at h
        by_cases hgt : m.id > a.id
        · rw [if_pos hgt] at h
          exact List.mem_cons_of_mem a (ih ((Option.some_inj.mp h) ▸ hm))
        · rw [if_neg hgt] at h
          exact (Option.some_inj.mp h) ▸ List.mem_cons_self a as

/-- The row returned by `ORDER BY id DESC LIMIT 1` has the largest id. -/
theorem maxIdEntry_ge {l : List Entry} {e : Entry} (h : maxIdEntry l = some e) :
    ∀ x ∈ l, x.id ≤ e.id := by
  induction l generalizing e with
  | nil => exact absurd h (by simp [maxIdEntry])
  | cons a as ih =>
      intro x hx
      rcases hm : maxIdEntry as with _ | m
      · have has : as = [] := maxIdEntry_eq_none.mp hm
        simp only [maxIdEntry, hm] at h
        rcases List.mem_cons.mp hx with h1 | h2
        · rw [h1, ← Option.some_inj.mp h]
        · rw [has] at h2
          exact absurd h2 (List.not_mem_nil x)
      · simp only [maxIdEntry, hm] at h
        by_cases hgt : m.id > a.id
        · rw [if_pos hgt] at h
          have he : e = m := (Option.some_inj.mp h).symm
          rcases List.mem_cons.mp hx with h1 | h2
          · rw [h1, he]
            exact Nat.le_of_lt hgt
          · rw [he]
            exact ih hm x h2
        · rw [if_neg hgt] at h
          have he : e = a := (Option.some_inj.mp h).symm
          rcases List.mem_cons.mp hx with h1 | h2
          · rw [h1, he]
          · rw [he]
            exact Nat.le_trans (ih hm x h2) (Nat.le_of_not_lt hgt)

/-- C4: `/undo` on an empty store leaves it unchanged and replies with the
fixed nothing-to-delete text; on a store whose entry `top` strictly
dominates all other ids it removes exactly `top` and echoes its fields;
and after inserting entries A then B into an empty store, the first call
removes B, the second removes A, and the third finds nothing to delete. -/
theorem c4_undo_most_recent :
    (∀ s : Store, s.entries = [] → undo_last s = (s, emptyUndoReply))
    ∧ (∀ s : Store, ∀ top ∈ s.entries,
        (∀ e ∈ s.entries, e ≠ top → e.id < top.id) →
        (undo_last s).1.entries = s.entries.filter (fun e => e.id != top.id)
        ∧ top ∉ (undo_last s).1.entries
        ∧ (∀ e ∈ s.entries, e.id ≠ top.id → e ∈ (undo_last s).1.entries)
        ∧ (undo_last s).2 = undoReply top)
    ∧ (∀ (a b : Rat) (ca cb ta tb : String) (n1 n2 : DateTime),
        (undo_last (add_entry (add_entry emptyStore a ca ta n1) b cb tb n2)).1.entries
          = (add_entry emptyStore a ca ta n1).entries
        ∧ (undo_last (add_entry (add_entry emptyStore a ca ta n1) b cb tb n2)).2
          = undoReply ⟨2, none, b, cb, tb, n2⟩
        ∧ (undo_last (undo_last (add_entry (add_entry emptyStore a ca ta n1) b cb tb n2)).1).1.entries
          = []
        ∧ (undo_last (undo_last (add_entry (add_entry emptyStore a ca ta n1) b cb tb n2)).1).2
          = undoReply ⟨1, none, a, ca, ta, n1⟩
        ∧ undo_last (undo_last (undo_last (add_entry (add_entry emptyStore a ca ta n1) b cb tb
              n2)).1).1
          = ((undo_last (undo_last (add_entry (add_entry emptyStore a ca ta n1) b cb tb
              n2)).1).1, emptyUndoReply)) := by
  refine ⟨fun s h => ?_, fun s top htop hmax => ?_, fun a b ca cb ta tb n1 n2 => ?_⟩
  · unfold undo_last
    rw [h]
    rfl
  · have hmaxeq : maxIdEntry s.entries = some top := by
      rcases hm : maxIdEntry s.entries with _ | m
      · rw [maxIdEntry_eq_none.mp hm] at htop
        exact absurd htop (List.not_mem_nil top)
      · by_cases hmt : m = top
        · rw [hmt]
        · have h1 : m.id < top.id := hmax m (maxIdEntry_mem hm) hmt
          have h2 : top.id ≤ m.id := maxIdEntry_ge hm top htop
          omega
    have hu : undo_last s
        = (⟨s.entries.filter (fun e => e.id != top.id), s.next_id⟩, undoReply top) := by
      unfold undo_last
      rw [hmaxeq]
    refine ⟨by rw [hu], ?_, fun e he hne => ?_, by rw [hu]⟩
    · rw [hu]
      intro hmem
      have := (List.mem_filter.mp hmem).2
      simp at this
    · rw [hu]
      exact List.mem_filter.mpr ⟨he, by simpa using hne⟩
  · exact ⟨rfl, rfl, rfl, rfl, rfl⟩

/-- Witness for C4 at concrete stores. -/
theorem c4_undo_most_recent_witness :
    undo_last emptyStore = (emptyStore, emptyUndoReply)
    ∧ (undo_last ⟨[⟨1, none, 5, "קפה", "expense", ⟨2026, 1, 1, 0, 0, 0, 0⟩⟩,
          ⟨2, none, 7, "שכר", "income", ⟨2026, 1, 2, 0, 0, 0, 0⟩⟩], 3⟩).2
        = undoReply ⟨2, none, 7, "שכר", "income", ⟨2026, 1, 2, 0, 0, 0, 0⟩⟩ := by
  constructor
  · exact c4_undo_most_recent.1 emptyStore rfl
  · refine (c4_undo_most_recent.2.1 _ _ (by simp) ?_).2.2.2
    intro e he hne
    rcases List.mem_cons.mp he with h1 | h2
    · rw [h1]
      decide
    · rcases List.mem_cons.mp h2 with h3 | h4
      · exact absurd h3 hne
      · exact absurd h4 (List.not_mem_nil e)

/-- Midnight of a calendar day precedes every timestamp of that day. -/
theorem dtLe_dayStart (a : DateTime) (y m d : Nat)
    (hy : a.year = y) (hm : a.month = m) (hd : a.day = d) :
    dtLe ⟨y, m, d, 0, 0, 0, 0⟩ a = true := by
  subst hy
  subst hm
  subst hd
  simp only [dtLe]
  split_ifs <;> simp only [decide_eq_true_eq, ne_eq, not_not, not_true] at * <;> omega

/-- Every valid time of a calendar day other than a strictly fractional
23:59:59 instant is at most the day's 23:59:59 bound. -/
theorem dtLe_dayEnd (a : DateTime) (y m d : Nat)
    (hy : a.year = y) (hm : a.month = m) (hd : a.day = d)
    (hh : a.hour ≤ 23) (hmin : a.minute ≤ 59) (hs : a.second ≤ 59)
    (hlast : ¬(a.hour = 23 ∧ a.minute = 59 ∧ a.second = 59 ∧ 0 < a.microsecond)) :
    dtLe a ⟨y, m, d, 23, 59, 59, 0⟩ = true := by
  subst hy
  subst hm
  subst hd
  have hlast2 : a.hour < 23 ∨ a.minute < 59 ∨ a.second < 59 ∨ a.microsecond = 0 := by
    by_contra hc
    push_neg at hc
    exact hlast ⟨by omega, by omega, by omega, by omega⟩
  simp only [dtLe]
  rcases hlast2 with h | h | h | h <;> split_ifs <;>
    simp only [decide_eq_true_eq, ne_eq, not_not, not_true] at * <;> omega

/-- A timestamp between a day's midnight and its 23:59:59 bound lies on
that calendar day. -/
theorem dtLe_interval_day (a : DateTime) (y m d : Nat)
    (h1 : dtLe ⟨y, m, d, 0, 0, 0, 0⟩ a = true)
    (h2 : dtLe a ⟨y, m, d, 23, 59, 59, 0⟩ = true) :
    a.year = y ∧ a.month = m ∧ a.day = d := by
  simp only [dtLe] at h1 h2
  have hy : a.year = y := by
    by_contra hyne
    rw [if_pos (show y ≠ a.year from fun hc => hyne hc.symm)] at h1
    rw [if_pos (show a.year ≠ y from hyne)] at h2
    simp only [decide_eq_true_eq] at h1 h2
    omega
  rw [if_neg (show ¬ y ≠ a.year from fun hc => hc hy.symm)] at h1
  rw [if_neg (show ¬ a.year ≠ y from fun hc => hc hy)] at h2
  have hm : a.month = m := by
    by_contra hmne
    rw [if_pos (show m ≠ a.month from fun hc => hmne hc.symm)] at h1
    rw [if_pos (show a.month ≠ m from hmne)] at h2
    simp only [decide_eq_true_eq] at h1 h2
    omega
  rw [if_neg (show ¬ m ≠ a.month from fun hc => hc hm.symm)] at h1
  rw [if_neg (show ¬ a.month ≠ m from fun hc => hc hm)] at h2
  have hd : a.day = d := by
    by_contra hdne
    rw [if_pos (show d ≠ a.day from fun hc => hdne hc.symm)] at h1
    rw [if_pos (show a.day ≠ d from hdne)] at h2
    simp only [decide_eq_true_eq] at h1 h2
    omega
  exact ⟨hy, hm, hd⟩

/-- C5: `/delete` with a parsed calendar date removes exactly the entries
whose timestamp lies in [day 00:00:00, day 23:59:59] inclusive — in
particular every entry of that day at any hour, fractional seconds
included, up to the 23:59:59 bound — keeps every entry whose timestamp
lies outside the interval (so entries of other calendar days are
untouched), and replies with the same fixed success text even when nothing
was removed. -/
theorem c5_delete_by_calendar_date :
    ∀ (s : Store) (y m d : Nat),
      ((delete_by_date s (y, m, d)).1.entries
        = s.entries.filter (fun e => !(dtLe ⟨y, m, d, 0, 0, 0, 0⟩ e.date
            && dtLe e.date ⟨y, m, d, 23, 59, 59, 0⟩)))
      ∧ (∀ e ∈ s.entries,
          dtLe ⟨y, m, d, 0, 0, 0, 0⟩ e.date = true →
          dtLe e.date ⟨y, m, d, 23, 59, 59, 0⟩ = true →
          e ∉ (delete_by_date s (y, m, d)).1.entries)
      ∧ (∀ e ∈ s.entries,
          ¬(dtLe ⟨y, m, d, 0, 0, 0, 0⟩ e.date = true
            ∧ dtLe e.date ⟨y, m, d, 23, 59, 59, 0⟩ = true) →
          e ∈ (delete_by_date s (y, m, d)).1.entries)
      ∧ (∀ e ∈ s.entries,
          e.date.year = y → e.date.month = m → e.date.day = d →
          e.date.hour ≤ 23 → e.date.minute ≤ 59 → e.date.second ≤ 59 →
          ¬(e.date.hour = 23 ∧ e.date.minute = 59 ∧ e.date.second = 59
            ∧ 0 < e.date.microsecond) →
          e ∉ (delete_by_date s (y, m, d)).1.entries)
      ∧ (∀ e ∈ s.entries,
          ¬(e.date.year = y ∧ e.date.month = m ∧ e.date.day = d) →
          e ∈ (delete_by_date s (y, m, d)).1.entries)
      ∧ (delete_by_date s (y, m, d)).2 = deleteReply (y, m, d) := by
  intro s y m d
  have hin : ∀ e ∈ s.entries,
      dtLe ⟨y, m, d, 0, 0, 0, 0⟩ e.date = true →
      dtLe e.date ⟨y, m, d, 23, 59, 59, 0⟩ = true →
      e ∉ (delete_by_date s (y, m, d)).1.entries := by
    intro e _ hlo hhi hmem
    have hp := (List.mem_filter.mp hmem).2
    rw [hlo, hhi] at hp
    simp at hp
  have hout : ∀ e ∈ s.entries,
      ¬(dtLe ⟨y, m, d, 0, 0, 0, 0⟩ e.date = true
        ∧ dtLe e.date ⟨y, m, d, 23, 59, 59, 0⟩ = true) →
      e ∈ (delete_by_date s (y, m, d)).1.entries := by
    intro e he hni
    refine List.mem_filter.mpr ⟨he, ?_⟩
    rcases hb1 : dtLe ⟨y, m, d, 0, 0, 0, 0⟩ e.date <;>
      rcases hb2 : dtLe e.date ⟨y, m, d, 23, 59, 59, 0⟩ <;>
      simp_all
  refine ⟨rfl, hin, hout, fun e he h1 h2 h3 h4 h5 h6 h7 => ?_, fun e he hday => ?_, rfl⟩
  · exact hin e he (dtLe_dayStart e.date y m d h1 h2 h3)
      (dtLe_dayEnd e.date y m d h1 h2 h3 h4 h5 h6 h7)
  · refine hout e he ?_
    intro hboth
    exact hday (dtLe_interval_day e.date y m d hboth.1 hboth.2)

/-- Witness for C5 at a concrete store: an afternoon entry with fractional
seconds on 14 Feb 2026 is removed, an entry of 15 Feb 2026 survives. -/
theorem c5_delete_by_calendar_date_witness :
    (⟨1, none, 50, "אוכל", "expense", ⟨2026, 2, 14, 14, 30, 0, 123456⟩⟩ : Entry)
        ∉ (delete_by_date ⟨[⟨1, none, 50, "אוכל", "expense", ⟨2026, 2, 14, 14, 30, 0, 123456⟩⟩,
            ⟨2, none, 9, "קפה", "expense", ⟨2026, 2, 15, 0, 0, 0, 0⟩⟩], 3⟩ (2026, 2, 14)).1.entries
    ∧ (⟨2, none, 9, "קפה", "expense", ⟨2026, 2, 15, 0, 0, 0, 0⟩⟩ : Entry)
        ∈ (delete_by_date ⟨[⟨1, none, 50, "אוכל", "expense", ⟨2026, 2, 14, 14, 30, 0, 123456⟩⟩,
            ⟨2, none, 9, "קפה", "expense", ⟨2026, 2, 15, 0, 0, 0, 0⟩⟩], 3⟩ (2026, 2, 14)).1.entries := by
  constructor
  · exact (c5_delete_by_calendar_date _ 2026 2 14).2.2.2.1 _ (by simp) rfl rfl rfl
      (by decide) (by decide) (by decide) (by decide)
  · exact (c5_delete_by_calendar_date _ 2026 2 14).2.2.2.2.1 _ (by simp) (by decide)

/-- C6 (refuting evidence): user 123 sends "אוכל 50" on 14 Feb 2026 and the
entry is stored on that date, yet `/search date 14/02/2026` by that user
replies with the fixed no-data text — indeed it does so for every user id —
because the insert stores a NULL `user_id` and the query compares the full
datetime text against a date-only string. -/
theorem c6_search_by_date_finds_nothing :
    (handle_message emptyStore ⟨2026, 2, 14, 10, 30, 0, 123456⟩ "אוכל 50").1
      = ⟨[⟨1, none, 50, "אוכל", "expense", ⟨2026, 2, 14, 10, 30, 0, 123456⟩⟩], 2⟩
    ∧ search_date ⟨[⟨1, none, 50, "אוכל", "expense", ⟨2026, 2, 14, 10, 30, 0, 123456⟩⟩], 2⟩
        123 (2026, 2, 14)
      = ([], noDataReply)
    ∧ (∀ u : Int,
        search_date ⟨[⟨1, none, 50, "אוכל", "expense", ⟨2026, 2, 14, 10, 30, 0, 123456⟩⟩], 2⟩
          u (2026, 2, 14)
        = ([], noDataReply)) := by
  refine ⟨?_, by decide, fun u => rfl⟩
  have h1 : parseEntry "אוכל 50" = ParseResult.ok 50 "אוכל" "expense" := by decide
  simp [handle_message, h1, add_entry, emptyStore]

/-- C7 (refuting evidence): with the current instant 2026-02-15
12:00:00.500000, the month window start computed by
`replace(day=1, hour=0, minute=0, second=0)` keeps the microsecond
(00:00:00.500000 on 1 Feb), so an expense of 50 stamped exactly at the
first instant of the month — which is ≥ the month's 00:00:00 — is excluded
from both month aggregates; the week window start is exactly now − 7 days. -/
theorem c7_month_window_misses_month_start :
    startOfMonth ⟨2026, 2, 15, 12, 0, 0, 500000⟩ = ⟨2026, 2, 1, 0, 0, 0, 500000⟩
    ∧ dtLe ⟨2026, 2, 1, 0, 0, 0, 0⟩ ⟨2026, 2, 1, 0, 0, 0, 0⟩ = true
    ∧ get_month_total ⟨[⟨1, none, 50, "מצרכים", "expense", ⟨2026, 2, 1, 0, 0, 0, 0⟩⟩], 2⟩
        ⟨2026, 2, 15, 12, 0, 0, 500000⟩ = (0, 0)
    ∧ get_month_totals_by_category
        ⟨[⟨1, none, 50, "מצרכים", "expense", ⟨2026, 2, 1, 0, 0, 0, 0⟩⟩], 2⟩
        ⟨2026, 2, 15, 12, 0, 0, 500000⟩ = ([], [])
    ∧ weekAgo ⟨2026, 2, 15, 12, 0, 0, 500000⟩ = ⟨2026, 2, 8, 12, 0, 0, 500000⟩ := by
  refine ⟨rfl, by decide, ?_, rfl, by decide⟩
  with_unfolding_all decide

/-- C10: the insert path supplies only amount, category, type and date, so
every entry it creates carries a NULL `user_id`; the message handler
preserves the all-NULL invariant; and on any store satisfying it the
`/search` query's `user_id = ?` filter matches nothing, so the fixed
no-data reply is returned for every user and date. -/
theorem c10_null_user_id :
    ∀ (s : Store) (amount : Rat) (category entry_type : String) (now : DateTime),
      (add_entry s amount category entry_type now).entries
        = s.entries ++ [⟨s.next_id, none, amount, category, entry_type, now⟩]
      ∧ (∀ e ∈ (add_entry s amount category entry_type now).entries,
          e ∉ s.entries → e.user_id = none)
      ∧ (∀ text : String, (∀ e ∈ s.entries, e.user_id = none) →
          ∀ e ∈ (handle_message s now text).1.entries, e.user_id = none)
      ∧ ((∀ e ∈ s.entries, e.user_id = none) →
          ∀ (u : Int) (target : Nat × Nat × Nat),
            search_date s u target = ([], noDataReply)) := by
  intro s amount category entry_type now
  refine ⟨rfl, fun e he hn => ?_, fun text hall e he => ?_, fun hall u target => ?_⟩
  · rcases List.mem_append.mp he with h1 | h2
    · exact absurd h1 hn
    · rcases List.mem_cons.mp h2 with h3 | h4
      · rw [h3]
      · exact absurd h4 (List.not_mem_nil e)
  · cases hp : parseEntry text with
    | formatError =>
        have hh : handle_message s now text = (s, fmtErrReply) := by
          simp [handle_message, hp]
        rw [hh] at he
        exact hall e he
    | notANumberError =>
        have hh : handle_message s now text = (s, nanReply) := by
          simp [handle_message, hp]
        rw [hh] at he
        exact hall e he
    | ok a c t =>
        have hh : (handle_message s now text).1 = add_entry s a c t now := by
          simp [handle_message, hp]
        rw [hh] at he
        rcases List.mem_append.mp he with h1 | h2
        · exact hall e h1
        · rcases List.mem_cons.mp h2 with h3 | h4
          · rw [h3]
          · exact absurd h4 (List.not_mem_nil e)
  · have hf : s.entries.filter
        (fun e => e.user_id == some u && isoDateTime e.date == isoDate target) = [] := by
      rw [List.filter_eq_nil_iff]
      intro e he hb
      rw [hall e he] at hb
      simp at hb
    simp only [search_date, hf]
    rw [if_pos (show sqlSumByCatType [] = [] from rfl)]

/-- Witness for C10 at the empty store. -/
theorem c10_null_user_id_witness :
    search_date emptyStore 123 (2026, 2, 14) = ([], noDataReply) :=
  (c10_null_user_id emptyStore 0 "" "" ⟨2026, 1, 1, 0, 0, 0, 0⟩).2.2.2
    (fun e he => absurd he (List.not_mem_nil e)) 123 (2026, 2, 14)
